import Mathlib

/- Verification development for the rust-script-bundler repository.

   The definitions below are a shallow embedding of the program's data model
   and operations:
   - the proc_macro2 token model (Delimiter, Spacing, Lit, TokenTree) used by
     src/print.rs;
   - the renderer write_tokens_normalized and the documentation-attribute
     recognizer as_doc_comment (src/print.rs);
   - the FilePrinter Display implementation (src/print.rs), with the assert
     on attribute style modelled as an aborted (Option.none) rendering;
   - the metadata embedder new_manifest_comment and the bundling pipeline
     Bundler::bundle (src/lib.rs), with the file system as explicit state and
     the external module-inlining collaborator as a function parameter;
   - the command-line entry points main/try_main
     (src/bin/rust-script-bundle.rs).

   Machine strings are Lean String; paths are lists of components; fallible
   operations return Except or Option. -/

/- Token model: proc_macro2::Delimiter (src/print.rs uses Parenthesis, Brace,
   Bracket, None). -/
inductive Delimiter where
  | parenthesis
  | brace
  | bracket
  | none
deriving DecidableEq

/- proc_macro2::Spacing on punctuation: Alone or Joint (joined to the next
   token with no gap). -/
inductive Spacing where
  | alone
  | joint
deriving DecidableEq

/- A literal token: either a string literal carrying its decoded value (the
   case syn::Lit::Str recognizes in as_doc_comment), or any other literal
   carrying its source text. -/
inductive Lit where
  | str (value : String)
  | other (src : String)
deriving DecidableEq

/- proc_macro2::TokenTree: a group (delimiter wrapping a nested token
   stream), an identifier, a punctuation character with spacing, or a
   literal. -/
inductive TokenTree where
  | group (d : Delimiter) (stream : List TokenTree)
  | ident (s : String)
  | punct (ch : Char) (spacing : Spacing)
  | literal (l : Lit)

/- After the Punct arm of the renderer loop, the joint flag is set exactly
   when the punctuation token's spacing is Joint (src/print.rs:103-106);
   every other token kind leaves it false. -/
def isJointPunct : TokenTree → Bool
  | .punct _ .joint => true
  | _ => false

/- Source text of one character inside a string literal, as proc_macro2
   Display escapes it (external library; the standard escapes suffice for
   every literal this development evaluates). -/
def escapeChar : Char → String
  | '"' => "\\\""
  | '\\' => "\\\\"
  | '\n' => "\\n"
  | '\r' => "\\r"
  | '\t' => "\\t"
  | c => c.toString

/- Display of a literal token (write!(f, "\x7b\x7d", tt) on a
   proc_macro2::Literal): a string literal shows quoted and escaped, any
   other literal shows its source text. -/
def litDisplay : Lit → String
  | .str v => "\"" ++ String.join (v.data.map escapeChar) ++ "\""
  | .other src => src

/- The start/end markers chosen per delimiter kind in write_tokens_normalized
   (src/print.rs:82-87). -/
def delimStrs : Delimiter → String × String
  | .parenthesis => ("(", ")")
  | .brace => ("\x7b\n", "\x7d\n")
  | .bracket => ("[", "]")
  | .none => ("", "")

/- as_doc_comment (src/print.rs:116-140): recognizes a '#' punctuation token
   followed by a bracket group whose first three tokens are an identifier
   "doc", a '=' punctuation token, and a string literal; returns the
   literal's decoded value.  The iterator is only advanced three times, so
   any tokens after the third are not inspected. -/
def as_doc_comment : TokenTree → TokenTree → Option String
  | .punct c _, .group .bracket stream =>
    if c = '#' then
      match stream with
      | .ident i :: .punct p _ :: .literal l :: _ =>
        if i = "doc" ∧ p = '=' then
          match l with
          | .str v => some v
          | .other _ => Option.none
        else Option.none
      | _ => Option.none
    else Option.none
  | _, _ => Option.none

/- The loop body of write_tokens_normalized (src/print.rs:59-112), with the
   mutable first/joint flags passed explicitly.  Before emitting a token, the
   lookahead checks whether it forms a doc-comment pattern with the next
   token; if so both tokens are consumed and one "///" line is written.
   Otherwise the token renders: groups recursively (an empty group as
   start-space-end, a nonempty one with a trailing line break), identifiers
   and literals verbatim, punctuation followed by a forced line break when it
   is ';'. -/
def writeTokensFrom : List TokenTree → Bool → Bool → String
  | [], _, _ => ""
  | tt :: rest, first, joint =>
    let sep := if !first && !joint then " " else ""
    let cur : String := match tt with
      | .group d inner =>
        let se := delimStrs d
        if inner.isEmpty then se.1 ++ " " ++ se.2
        else se.1 ++ " " ++ writeTokensFrom inner true false ++ " " ++ se.2 ++ "\n"
      | .ident s => s
      | .punct ch _ => ch.toString ++ (if ch = ';' then "\n" else "")
      | .literal l => litDisplay l
    match h : rest with
    | next :: rest2 =>
      match as_doc_comment tt next with
      | some comment =>
        sep ++ "///" ++ comment ++ "\n" ++ writeTokensFrom rest2 false false
      | Option.none =>
        sep ++ cur ++ writeTokensFrom rest false (isJointPunct tt)
    | [] => sep ++ cur
termination_by ts _ _ => sizeOf ts
decreasing_by
  all_goals simp_wf
  all_goals try subst h
  all_goals try simp [List.cons.sizeOf_spec]
  all_goals omega

/- write_tokens_normalized (src/print.rs:59): the loop starts with
   first = true and joint = false. -/
def write_tokens_normalized (tokens : List TokenTree) : String :=
  writeTokensFrom tokens true false

/- The rendering of one token by the non-doc arms of the loop (the Group,
   Ident, Punct and Literal match arms of src/print.rs:80-109). -/
def writeTokenTree : TokenTree → String
  | .group d inner =>
    let se := delimStrs d
    if inner.isEmpty then se.1 ++ " " ++ se.2
    else se.1 ++ " " ++ writeTokensFrom inner true false ++ " " ++ se.2 ++ "\n"
  | .ident s => s
  | .punct ch _ => ch.toString ++ (if ch = ';' then "\n" else "")
  | .literal l => litDisplay l

/- syn::AttrStyle: an attribute is either outer (#[...]) or inner (#![...]). -/
inductive AttrStyle where
  | outer
  | inner
deriving DecidableEq

/- matches!(attr.style, syn::AttrStyle::Inner(_)) (src/print.rs:30,38). -/
def AttrStyle.isInner : AttrStyle → Bool
  | .inner => true
  | .outer => false

/- syn::Attribute: a style, a path (list of segments), and the token payload
   after the path. -/
structure Attribute where
  style : AttrStyle
  path : List String
  tokens : List TokenTree

/- syn::Path::is_ident("doc") holds exactly when the path is the single
   segment "doc" (src/print.rs:28,36). -/
def isDocPath (p : List String) : Bool := p == ["doc"]

/- A top-level item is rendered only through its token stream
   (item.to_token_stream() at src/print.rs:46), so items are embedded as
   token streams. -/
abbrev Item : Type := List TokenTree

/- syn::File (src/print.rs FilePrinter input): optional shebang line,
   unit-level attributes, and top-level items. -/
structure SynFile where
  shebang : Option String
  attrs : List Attribute
  items : List Item

/- Modelled from the spec: the external proc_macro2 Display implementation
   for TokenStream, used by FilePrinter for attribute paths and payloads
   (the "\x7b\x7d" format arguments at src/print.rs:33 and 41).  The spec
   treats attribute lines as a directive line containing path and token
   payload; the exact collaborator text is irrelevant to every claim, and is
   modelled with proc_macro2's documented spacing rule: one space between
   tokens except after a Joint punctuation token. -/
def tokenStreamDisplayFrom : List TokenTree → Bool → Bool → String
  | [], _, _ => ""
  | tt :: rest, first, joint =>
    let sep := if !first && !joint then " " else ""
    let cur : String := match tt with
      | .group d inner =>
        match d with
        | .parenthesis => "(" ++ tokenStreamDisplayFrom inner true false ++ ")"
        | .brace =>
          if inner.isEmpty then "\x7b \x7d"
          else "\x7b " ++ tokenStreamDisplayFrom inner true false ++ " \x7d"
        | .bracket => "[" ++ tokenStreamDisplayFrom inner true false ++ "]"
        | .none => tokenStreamDisplayFrom inner true false
      | .ident s => s
      | .punct ch _ => ch.toString
      | .literal l => litDisplay l
    sep ++ cur ++ tokenStreamDisplayFrom rest false (isJointPunct tt)
termination_by ts _ _ => sizeOf ts
decreasing_by
  all_goals simp_wf
  all_goals try simp [List.cons.sizeOf_spec]
  all_goals omega

def tokenStreamDisplay (tokens : List TokenTree) : String :=
  tokenStreamDisplayFrom tokens true false

/- Modelled from the spec: Display of attr.path.to_token_stream()
   (src/print.rs:41), the external syn/proc_macro2 rendering of a path's
   segments joined by "::" tokens. -/
def pathDisplay (segments : List String) : String :=
  String.intercalate " :: " segments

/- One documentation attribute line: writeln!(f, "//!\x7b\x7d", attr.tokens)
   (src/print.rs:33). -/
def docLine (a : Attribute) : String :=
  "//!" ++ tokenStreamDisplay a.tokens ++ "\n"

/- One non-doc unit attribute line:
   writeln!(f, "#![\x7b\x7d\x7b\x7d]", attr.path.to_token_stream(), attr.tokens)
   (src/print.rs:41). -/
def attrLine (a : Attribute) : String :=
  "#![" ++ pathDisplay a.path ++ tokenStreamDisplay a.tokens ++ "]" ++ "\n"

/- The shebang line, printed first when present (src/print.rs:22-24). -/
def shebangText (file : SynFile) : String :=
  match file.shebang with
  | some s => s ++ "\n"
  | Option.none => ""

/- Everything FilePrinter emits before the items: the shebang, then all doc
   attributes (first pass), then all other attributes (second pass), each
   pass preserving the attribute list's relative order (src/print.rs:22-42). -/
def headerText (file : SynFile) : String :=
  shebangText file
    ++ String.join ((file.attrs.filter (fun a => isDocPath a.path)).map docLine)
    ++ String.join ((file.attrs.filter (fun a => !(isDocPath a.path))).map attrLine)

/- The item loop (src/print.rs:45-48): each item's token rendering followed
   by writeln!(f, "\n"), i.e. by "\n\n". -/
def itemsText : List Item → String
  | [] => ""
  | it :: rest => (write_tokens_normalized it ++ "\n\n") ++ itemsText rest

namespace FilePrinter

/- The Display implementation of FilePrinter (src/print.rs:19-52).  Both
   attribute passes assert that every visited attribute has inner style;
   a failing assert aborts the whole rendering, modelled as Option.none. -/
def fmt (file : SynFile) : Option String :=
  if ((file.attrs.filter (fun a => isDocPath a.path)).all (fun a => a.style.isInner))
      && ((file.attrs.filter (fun a => !(isDocPath a.path))).all (fun a => a.style.isInner)) then
    some (headerText file ++ itemsText file.items)
  else Option.none

end FilePrinter

/- Rust str::lines, modelled character by character (external std function
   used by new_manifest_comment at src/lib.rs:44): lines are split at '\n',
   a '\r' immediately before the '\n' is stripped, and a final fragment
   without a line ending is produced only when nonempty. -/
def rustLinesAux : List Char → List Char → List String
  | [], acc => if acc.isEmpty then [] else [String.mk acc.reverse]
  | c :: rest, acc =>
    if c = '\n' then
      let acc2 : List Char := match acc with
        | '\r' :: acc' => acc'
        | _ => acc
      String.mk acc2.reverse :: rustLinesAux rest []
    else
      rustLinesAux rest (c :: acc)

def rustLines (s : String) : List String := rustLinesAux s.data []

/- The attribute produced for one line by quote!(#(#![doc = #content])*) and
   parsed back by Attribute::parse_inner (src/lib.rs:47-54): an inner-style
   attribute with path "doc" and token payload `= "<payload>"`. -/
def innerDocAttr (payload : String) : Attribute :=
  { style := .inner
    path := ["doc"]
    tokens := [.punct '=' .alone, .literal (.str payload)] }

/- new_manifest_comment (src/lib.rs:41-55): the fence line "```cargo", each
   line of the manifest text, and the fence line "```", each prefixed with
   one space and wrapped in one inner doc attribute.  The quote/parse round
   trip cannot fail, so the function is total. -/
def new_manifest_comment (content : String) : List Attribute :=
  (("```cargo" :: rustLines content) ++ ["```"]).map (fun line => innerDocAttr (" " ++ line))

/- The string payload of an attribute whose tokens have the shape produced
   for documentation attributes (`= "<payload>"`). -/
def docAttrPayload (a : Attribute) : Option String :=
  match a.tokens with
  | [.punct '=' _, .literal (.str v)] => some v
  | _ => Option.none

/- syn::ItemMod restricted to what the pipeline uses: a module name and the
   wrapped member list. -/
structure ItemMod where
  ident : String
  content : List Item

/- Modelled from the spec: the body of modulize_crate (src/lib.rs:37-39) is
   todo!(), a placeholder with no defined behavior, so this definition
   follows the spec's section 4.4: wrap the unit's entire member list as the
   body of one named nested scope, discarding the unit's own unit-level
   attributes and execution directive. -/
def modulize_crate (name : String) (file : SynFile) : ItemMod :=
  { ident := name, content := file.items }

/- Modelled from the spec: the Into<syn::Item> conversion applied to each
   modulized crate (src/lib.rs:152); per section 4.4 the named scope must
   round-trip through the renderer as `mod <name> \x7b <members> \x7d`. -/
def ItemMod.toItem (m : ItemMod) : Item :=
  [.ident "mod", .ident m.ident, .group .brace (m.content.foldr (· ++ ·) [])]

/- File-system state: the set of existing directories and the file contents,
   both keyed by component paths. -/
structure FsState where
  dirs : List (List String)
  files : List (List String × String)
deriving DecidableEq

/- Content of the file at a path, when one exists. -/
def FsState.readFile? (fs : FsState) (p : List String) : Option String :=
  (fs.files.find? (fun e => e.1 == p)).map (fun e => e.2)

/- All the nonempty ancestor paths of p, shortest first. -/
def pathPrefixes (p : List String) : List (List String) :=
  (List.range p.length).map (fun i => p.take (i + 1))

/- std::fs::create_dir_all (src/lib.rs:134): creates every missing directory
   on the path, touching no file. -/
def FsState.createDirAll (fs : FsState) (p : List String) : FsState :=
  { fs with dirs := fs.dirs ++ (pathPrefixes p).filter (fun d => !(fs.dirs.contains d)) }

/- std::fs::File::create followed by writing the full content
   (src/lib.rs:164-170): truncates/replaces whatever was at the path. -/
def FsState.writeFile (fs : FsState) (p : List String) (content : String) : FsState :=
  { fs with files := (p, content) :: fs.files.filter (fun e => e.1 != p) }

/- The Bundler configuration (src/lib.rs:69-78).  The structured Manifest is
   produced and consumed by the external manifest-parsing collaborator (it
   only feeds with_lib), so only the raw manifest text the pipeline embeds is
   kept. -/
structure Bundler where
  binary_path : List String
  crates : List (String × List String)
  manifest_str : String
  out_dir : List String

/- Outcome of one bundle run: a returned target path, a propagated error, or
   an aborted process (a panicking assert inside rendering, which in the
   source fires only after File::create has truncated the target). -/
inductive BundleOutcome where
  | ok (target : List String)
  | err (msg : String)
  | panicked
deriving DecidableEq

/- The crates loop of Bundler::bundle (src/lib.rs:141-149): inline each
   crate, modulize it, and collect with fail-fast semantics
   (collect::<Result<Vec<_>>>). -/
def loadCrates (inline : List String → Except String SynFile) :
    List (String × List String) → Except String (List ItemMod)
  | [] => .ok []
  | (name, path) :: rest =>
    match inline path with
    | .error e => .error e
    | .ok lib =>
      match loadCrates inline rest with
      | .error e => .error e
      | .ok ms => .ok (modulize_crate name lib :: ms)

/- Bundler::bundle (src/lib.rs:131-176).  The module-inlining collaborator
   (inline_module, built on the external syn_inline_mod crate) is a
   parameter reading the file-system state.  Steps, in source order: join
   the target onto out_dir; create_dir_all on the target's parent; parse the
   binary; parse and modulize every crate; append the modules to the binary's
   items; set the rust-script shebang; splice the manifest doc attributes in
   front of the binary's attributes; render to the target file followed by
   the vim footer line.  Failures of the in-model file writes cannot occur
   (the state accepts every write), so every err outcome arises before the
   write stage; a rendering assert failure is the panicked outcome, with the
   target already truncated by File::create. -/
def Bundler.bundle (inline : FsState → List String → Except String SynFile)
    (b : Bundler) (target : List String) (fs : FsState) :
    BundleOutcome × FsState :=
  let tgt := b.out_dir ++ target
  let fs1 := fs.createDirAll tgt.dropLast
  match inline fs1 b.binary_path with
  | .error e => (.err e, fs1)
  | .ok binary =>
    match loadCrates (inline fs1) b.crates with
    | .error e => (.err e, fs1)
    | .ok libs =>
      let binary1 := { binary with items := binary.items ++ libs.map ItemMod.toItem }
      let binary2 := { binary1 with shebang := some "#!/usr/bin/env -S rust-script" }
      let binary3 := { binary2 with attrs := new_manifest_comment b.manifest_str ++ binary2.attrs }
      match FilePrinter.fmt binary3 with
      | Option.none => (.panicked, fs1.writeFile tgt "")
      | some text =>
        (.ok tgt, fs1.writeFile tgt (text ++ "\n" ++ "// vim: ft=rust syntax=rust" ++ "\n"))

/- try_main (src/bin/rust-script-bundle.rs:13-28): requires exactly three
   positional arguments, then runs Bundler::new_with_dir followed by bundle;
   that composite (environment, manifest parsing and bundling) is the
   runBundler parameter, returning the written path on success. -/
def try_main (runBundler : String → String → String → Except String String)
    (args : List String) : Except String Unit :=
  match args with
  | [crate_path, bin_path, target_path] =>
    match runBundler crate_path bin_path target_path with
    | .error e => .error e
    | .ok _ => .ok ()
  | _ => .error "Incorrect usage"

/- main (src/bin/rust-script-bundle.rs:7-11): on error it prints the error's
   Debug rendering to stderr; it returns (), so the process exit status is 0
   on both branches.  Result: (exit status, stderr text). -/
def rust_main (r : Except String Unit) : Nat × String :=
  match r with
  | .ok _ => (0, "")
  | .error e => (0, e ++ "\n")

/- A token with no nested group: an identifier, punctuation mark, or
   literal. -/
def isLeaf : TokenTree → Bool
  | .group _ _ => false
  | _ => true

/- Follows the spec's words for claim C7: the text of one leaf token,
   with a semicolon punctuation token immediately followed by a line
   break. -/
def leafTokenText : TokenTree → String
  | .group _ _ => ""
  | .ident s => s
  | .punct ch _ => ch.toString ++ (if ch = ';' then "\n" else "")
  | .literal l => litDisplay l

/- Follows the spec's words for claim C7: each token in order, preceded by a
   single separating space except for the first token and except after a
   punctuation token marked joined to the next. -/
def leafRenderSpec : List TokenTree → Bool → String
  | [], _ => ""
  | t :: rest, noSpace =>
    ((if noSpace then "" else " ") ++ leafTokenText t) ++ leafRenderSpec rest (isJointPunct t)

/- Follows the spec's words for claim C3: the marker punctuation token and
   the group emitted as an ordinary punctuation token and an ordinary group
   (each rendered by the renderer's plain token arms, with no documentation
   normalization applied to the pair itself). -/
def renderPairOrdinary (c : Char) (sp : Spacing) (d : Delimiter)
    (inner : List TokenTree) : String :=
  (writeTokenTree (.punct c sp) ++ (if sp = .joint then "" else " "))
    ++ writeTokenTree (.group d inner)

/-- C1: for every compilation unit with N top-level members and every name,
modulize_crate returns exactly one named nested-scope item whose inner member
sequence is the unit's member list itself: same length N and same order, under
the given name.  (modulize_crate is modelled from the spec, section 4.4, since
its source body is the todo!() placeholder.) -/
theorem modulize_crate_preserves_members (name : String) (u : SynFile) :
    (modulize_crate name u).ident = name
    ∧ (modulize_crate name u).content = u.items
    ∧ (modulize_crate name u).content.length = u.items.length :=
  ⟨rfl, rfl, rfl⟩

/- A bundler run that succeeds, for exercising the entry-point model. -/
def okBundlerRun : String → String → String → Except String String :=
  fun _ _ _ => .ok "bundled"

/-- C9 (code bug evidence): invoking the program with no command-line
arguments makes try_main fail, and main writes the error description to the
error stream, but the modelled process exit status is 0, not nonzero: main
ignores the error when producing the exit status. -/
theorem failing_invocation_exits_zero :
    try_main okBundlerRun [] = Except.error "Incorrect usage"
    ∧ rust_main (try_main okBundlerRun []) = (0, "Incorrect usage\n")
    ∧ rust_main (try_main okBundlerRun ["a", "b", "c"]) = (0, "") := by
  refine ⟨rfl, ?_, rfl⟩
  decide

/-- C6: for every raw manifest text, new_manifest_comment returns exactly
N + 2 documentation attributes, where N is the number of lines of the text:
the opening fence, each line in original order, then the closing fence, each
an inner-style doc attribute whose string payload is the corresponding line
prefixed with a single space.  The operation is total, hence never fails. -/
theorem new_manifest_comment_shape (content : String) :
    (new_manifest_comment content).length = (rustLines content).length + 2
    ∧ (new_manifest_comment content).map docAttrPayload
        = ((" ```cargo" :: (rustLines content).map (fun l => " " ++ l)) ++ [" ```"]).map some
    ∧ ∀ a ∈ new_manifest_comment content, a.style = AttrStyle.inner ∧ a.path = ["doc"] := by
  refine ⟨?_, ?_, ?_⟩
  · simp [new_manifest_comment]
  · simp [new_manifest_comment, innerDocAttr, docAttrPayload, List.map_map, Function.comp]
  · intro a ha
    simp only [new_manifest_comment, List.mem_map] at ha
    obtain ⟨line, _, rfl⟩ := ha
    exact ⟨rfl, rfl⟩

/-- C6 witness: at the concrete two-line manifest text "ab\ncd" the theorem
applies, and the line splitting evaluates to the two lines. -/
theorem new_manifest_comment_shape_witness :
    ((new_manifest_comment "ab\ncd").length = (rustLines "ab\ncd").length + 2
      ∧ (new_manifest_comment "ab\ncd").map docAttrPayload
          = ((" ```cargo" :: (rustLines "ab\ncd").map (fun l => " " ++ l)) ++ [" ```"]).map some
      ∧ ∀ a ∈ new_manifest_comment "ab\ncd", a.style = AttrStyle.inner ∧ a.path = ["doc"])
    ∧ rustLines "ab\ncd" = ["ab", "cd"] :=
  ⟨new_manifest_comment_shape "ab\ncd", by decide⟩

/- Creating directories never touches the files. -/
theorem createDirAll_files (fs : FsState) (p : List String) :
    (fs.createDirAll p).files = fs.files := rfl

/- Every ancestor of the created path exists after create_dir_all. -/
theorem mem_createDirAll_dirs (fs : FsState) (p d : List String)
    (hd : d ∈ pathPrefixes p) : d ∈ (fs.createDirAll p).dirs := by
  simp only [FsState.createDirAll, List.mem_append, List.mem_filter]
  by_cases hmem : d ∈ fs.dirs
  · exact Or.inl hmem
  · refine Or.inr ⟨hd, ?_⟩
    simp [hmem]

/-- C2: every bundle run that fails with a propagated error — all of which
arise before the write stage, for example because an auxiliary unit path is
unparsable — leaves the target file exactly as it was: absent if it was
absent, with unchanged content if it pre-existed. -/
theorem bundle_error_leaves_target_untouched
    (inline : FsState → List String → Except String SynFile)
    (b : Bundler) (target : List String) (fs : FsState) (msg : String)
    (h : (Bundler.bundle inline b target fs).1 = .err msg) :
    ((Bundler.bundle inline b target fs).2).readFile? (b.out_dir ++ target)
      = fs.readFile? (b.out_dir ++ target) := by
  unfold Bundler.bundle at h ⊢
  cases h1 : inline (fs.createDirAll (b.out_dir ++ target).dropLast) b.binary_path with
  | error e => simp [h1, FsState.readFile?, createDirAll_files]
  | ok binary =>
    cases h2 : loadCrates (inline (fs.createDirAll (b.out_dir ++ target).dropLast)) b.crates with
    | error e => simp [h1, h2, FsState.readFile?, createDirAll_files]
    | ok libs =>
      cases h3 : FilePrinter.fmt
          { binary with
            items := binary.items ++ libs.map ItemMod.toItem
            shebang := some "#!/usr/bin/env -S rust-script"
            attrs := new_manifest_comment b.manifest_str ++ binary.attrs } with
      | none => simp [h1, h2, h3] at h
      | some text => simp [h1, h2, h3] at h

/-- C10: whenever Bundler::bundle fails with a propagated error (during
parsing of the binary or of an auxiliary crate), the resulting state is
exactly the input state with the target's missing parent directories created
— directory creation happens before any parsing, so the directories remain
even though the target file was never written; in particular every ancestor
of the target's parent exists afterwards. -/
theorem bundle_error_dirs_created
    (inline : FsState → List String → Except String SynFile)
    (b : Bundler) (target : List String) (fs : FsState) (msg : String)
    (h : (Bundler.bundle inline b target fs).1 = .err msg) :
    (Bundler.bundle inline b target fs).2
        = fs.createDirAll (b.out_dir ++ target).dropLast
    ∧ ∀ d ∈ pathPrefixes (b.out_dir ++ target).dropLast,
        d ∈ ((Bundler.bundle inline b target fs).2).dirs := by
  unfold Bundler.bundle at h ⊢
  cases h1 : inline (fs.createDirAll (b.out_dir ++ target).dropLast) b.binary_path with
  | error e =>
    simp only [h1]
    exact ⟨trivial, fun d hd => mem_createDirAll_dirs fs _ d hd⟩
  | ok binary =>
    cases h2 : loadCrates (inline (fs.createDirAll (b.out_dir ++ target).dropLast)) b.crates with
    | error e =>
      simp only [h1, h2]
      exact ⟨trivial, fun d hd => mem_createDirAll_dirs fs _ d hd⟩
    | ok libs =>
      cases h3 : FilePrinter.fmt
          { binary with
            items := binary.items ++ libs.map ItemMod.toItem
            shebang := some "#!/usr/bin/env -S rust-script"
            attrs := new_manifest_comment b.manifest_str ++ binary.attrs } with
      | none => simp [h1, h2, h3] at h
      | some text => simp [h1, h2, h3] at h

/- Concrete data for exercising the failing bundle run: an inliner that
   rejects every path, a bundler over one auxiliary crate, and a state with a
   pre-existing file at the target path. -/
def wInline : FsState → List String → Except String SynFile :=
  fun _ _ => .error "parse failure"

def wBundler : Bundler :=
  { binary_path := ["src", "main.rs"]
    crates := [("mylib", ["src", "lib.rs"])]
    manifest_str := "name = \"x\""
    out_dir := ["out", "bundle"] }

def wFs : FsState :=
  { dirs := [], files := [(["out", "bundle", "t.rs"], "old content")] }

/-- C2 witness: the failing run over the concrete state leaves the
pre-existing target file's content unchanged. -/
theorem bundle_error_leaves_target_untouched_witness :
    (Bundler.bundle wInline wBundler ["t.rs"] wFs).1 = .err "parse failure"
    ∧ ((Bundler.bundle wInline wBundler ["t.rs"] wFs).2).readFile?
          (wBundler.out_dir ++ ["t.rs"])
        = wFs.readFile? (wBundler.out_dir ++ ["t.rs"])
    ∧ wFs.readFile? (wBundler.out_dir ++ ["t.rs"]) = some "old content" :=
  ⟨by decide,
   bundle_error_leaves_target_untouched wInline wBundler ["t.rs"] wFs "parse failure" (by decide),
   by decide⟩

/-- C10 witness: the failing run over the concrete state has created the
target's parent directories and nothing else changed. -/
theorem bundle_error_dirs_created_witness :
    (Bundler.bundle wInline wBundler ["t.rs"] wFs).1 = .err "parse failure"
    ∧ (Bundler.bundle wInline wBundler ["t.rs"] wFs).2
        = wFs.createDirAll (wBundler.out_dir ++ ["t.rs"]).dropLast
    ∧ ((Bundler.bundle wInline wBundler ["t.rs"] wFs).2).dirs
        = [["out"], ["out", "bundle"]] :=
  ⟨by decide,
   (bundle_error_dirs_created wInline wBundler ["t.rs"] wFs "parse failure" (by decide)).1,
   by decide⟩

/- A style is accepted by matches!(.., Inner(_)) exactly when it is inner. -/
theorem isInner_iff (s : AttrStyle) : s.isInner = true ↔ s = AttrStyle.inner := by
  cases s <;> simp [AttrStyle.isInner]

/- The two assert passes of FilePrinter::fmt accept a file exactly when
   every unit-level attribute, doc or not, has inner style. -/
theorem fmt_condition_iff (attrs : List Attribute) :
    (((attrs.filter (fun a => isDocPath a.path)).all (fun a => a.style.isInner))
      && ((attrs.filter (fun a => !(isDocPath a.path))).all (fun a => a.style.isInner))) = true
    ↔ ∀ a ∈ attrs, a.style = AttrStyle.inner := by
  simp only [Bool.and_eq_true, List.all_eq_true, List.mem_filter]
  constructor
  · rintro ⟨h1, h2⟩ a ha
    by_cases hdoc : isDocPath a.path = true
    · exact (isInner_iff _).1 (h1 a ⟨ha, hdoc⟩)
    · refine (isInner_iff _).1 (h2 a ⟨ha, ?_⟩)
      simp [Bool.not_eq_true] at hdoc ⊢
      exact hdoc
  · intro h
    exact ⟨fun a ha => (isInner_iff _).2 (h a ha.1),
           fun a ha => (isInner_iff _).2 (h a ha.1)⟩

/-- C8: rendering a compilation unit that carries a unit-level attribute
whose style is not inner hits a failing assert and aborts with no output;
when every unit-level attribute is inner-style, neither assert can fire and
the rendering produces output. -/
theorem fmt_aborts_iff_outer_attr (file : SynFile) :
    ((∃ a ∈ file.attrs, a.style ≠ AttrStyle.inner) → FilePrinter.fmt file = Option.none)
    ∧ ((∀ a ∈ file.attrs, a.style = AttrStyle.inner) → ∃ s, FilePrinter.fmt file = some s) := by
  constructor
  · rintro ⟨a, ha, hstyle⟩
    unfold FilePrinter.fmt
    rw [if_neg]
    intro hcond
    exact hstyle ((fmt_condition_iff file.attrs).1 hcond a ha)
  · intro h
    unfold FilePrinter.fmt
    rw [if_pos ((fmt_condition_iff file.attrs).2 h)]
    exact ⟨_, rfl⟩

/- A file carrying one outer-style unit attribute, and one with inner-only
   attributes. -/
def wOuterAttr : Attribute := { style := .outer, path := ["doc"], tokens := [] }

def wOuterFile : SynFile := { shebang := Option.none, attrs := [wOuterAttr], items := [] }

def wInnerFile : SynFile :=
  { shebang := Option.none
    attrs := [{ style := .inner, path := ["allow"], tokens := [] }]
    items := [] }

/-- C8 witness: the outer-attribute file aborts; the inner-attribute file
renders, with both renderings evaluated on the concrete inputs. -/
theorem fmt_aborts_iff_outer_attr_witness :
    FilePrinter.fmt wOuterFile = Option.none
    ∧ (∃ s, FilePrinter.fmt wInnerFile = some s)
    ∧ FilePrinter.fmt wInnerFile = some "#![allow]\n" :=
  ⟨(fmt_aborts_iff_outer_attr wOuterFile).1 ⟨wOuterAttr, List.Mem.head _, by decide⟩,
   (fmt_aborts_iff_outer_attr wInnerFile).2 (by decide),
   by
    simp [FilePrinter.fmt, headerText, shebangText, itemsText, wInnerFile, docLine,
      attrLine, tokenStreamDisplay, tokenStreamDisplayFrom, pathDisplay, isDocPath]
    decide⟩

/- The item loop's output in closed form: one rendered token sequence per
   item, each followed by "\n\n", concatenated in declaration order. -/
theorem itemsText_eq_foldr (l : List Item) :
    itemsText l
      = (l.map (fun it => write_tokens_normalized it ++ "\n\n")).foldr (· ++ ·) "" := by
  induction l with
  | nil => rfl
  | cons it rest ih => simp [itemsText, ih]

/-- C5: every successful rendering consists of the header (shebang and
attribute lines) followed by each top-level member's rendered token sequence,
each member followed by "\n\n" — the line break ending the member's last line
plus exactly one blank separator line — with the members concatenated in
declaration order, never reordered. -/
theorem fmt_renders_items_in_order (file : SynFile) (s : String)
    (h : FilePrinter.fmt file = some s) :
    s = headerText file
        ++ (file.items.map (fun it => write_tokens_normalized it ++ "\n\n")).foldr (· ++ ·) "" := by
  unfold FilePrinter.fmt at h
  split at h
  · rw [← itemsText_eq_foldr]
    exact (Option.some.inj h).symm
  · exact absurd h (by simp)

/- A unit with two members, for exercising the order- and separator-preserving
   rendering. -/
def wFileC5 : SynFile :=
  { shebang := Option.none
    attrs := []
    items := [[TokenTree.ident "a"], [TokenTree.ident "b"]] }

/-- C5 witness: the two-member file renders to its two members in order, each
followed by one blank line. -/
theorem fmt_renders_items_in_order_witness :
    FilePrinter.fmt wFileC5 = some "a\n\nb\n\n"
    ∧ "a\n\nb\n\n"
        = headerText wFileC5
          ++ (wFileC5.items.map (fun it => write_tokens_normalized it ++ "\n\n")).foldr (· ++ ·) "" := by
  have hfmt : FilePrinter.fmt wFileC5 = some "a\n\nb\n\n" := by
    simp [FilePrinter.fmt, headerText, shebangText, itemsText, wFileC5,
      write_tokens_normalized, writeTokensFrom, isDocPath]
    decide
  exact ⟨hfmt, fmt_renders_items_in_order wFileC5 "a\n\nb\n\n" hfmt⟩

/- The token list of the C3 counterexample group: four tokens whose first
   three match the documentation shape. -/
def c3FourTokenGroup : List TokenTree :=
  [.ident "doc", .punct '=' .alone, .literal (.str "x"), .ident "extra"]

/-- C3 counterexample: the marker token followed by a bracket group with FOUR
tokens — doc, '=', the string literal "x", and one extra identifier — is not
rendered as an ordinary punctuation token and group, contrary to the claim:
the recognizer inspects only the group's first three tokens, so the pair is
normalized to one documentation line and the extra token is dropped. -/
theorem four_token_doc_group_still_normalized :
    write_tokens_normalized [.punct '#' .alone, .group .bracket c3FourTokenGroup] = "///x\n"
    ∧ renderPairOrdinary '#' .alone .bracket c3FourTokenGroup = "# [ doc = \"x\" extra ]\n"
    ∧ write_tokens_normalized [.punct '#' .alone, .group .bracket c3FourTokenGroup]
        ≠ renderPairOrdinary '#' .alone .bracket c3FourTokenGroup := by
  have h1 : write_tokens_normalized [.punct '#' .alone, .group .bracket c3FourTokenGroup]
      = "///x\n" := by
    simp [write_tokens_normalized, writeTokensFrom, as_doc_comment, c3FourTokenGroup]
  have h2 : renderPairOrdinary '#' .alone .bracket c3FourTokenGroup
      = "# [ doc = \"x\" extra ]\n" := by
    simp [renderPairOrdinary, writeTokenTree, writeTokensFrom, as_doc_comment,
      isJointPunct, delimStrs, litDisplay, escapeChar, c3FourTokenGroup]
    decide
  refine ⟨h1, h2, ?_⟩
  rw [h1, h2]
  decide

/-- C3 (amended): a marker punctuation token followed by a bracket-delimited
group is rendered as an ordinary punctuation token and group exactly when the
recognizer rejects the pair, i.e. when the group's FIRST THREE tokens are not
an identifier doc, a punctuation '=', and a string literal (so in particular
when the group has fewer than three tokens, a non-string third token, a wrong
delimiter, or a wrong marker character); a group with extra tokens after a
matching three-token prefix is still normalized, with the extra tokens
dropped. -/
theorem unrecognized_pair_renders_ordinarily
    (c : Char) (sp : Spacing) (d : Delimiter) (inner : List TokenTree)
    (h : as_doc_comment (.punct c sp) (.group d inner) = Option.none) :
    write_tokens_normalized [.punct c sp, .group d inner]
      = renderPairOrdinary c sp d inner := by
  cases sp <;>
    simp [write_tokens_normalized, writeTokensFrom, h, renderPairOrdinary,
      writeTokenTree, isJointPunct, String.append_assoc]

/-- C3 witness: a group whose third token is a non-string literal is rejected
by the recognizer and rendered as the ordinary pair. -/
theorem unrecognized_pair_renders_ordinarily_witness :
    as_doc_comment (.punct '#' .alone)
        (.group .bracket [.ident "doc", .punct '=' .alone, .literal (.other "3")])
      = Option.none
    ∧ write_tokens_normalized
        [.punct '#' .alone,
         .group .bracket [.ident "doc", .punct '=' .alone, .literal (.other "3")]]
      = renderPairOrdinary '#' .alone .bracket
          [.ident "doc", .punct '=' .alone, .literal (.other "3")] :=
  ⟨by decide,
   unrecognized_pair_renders_ordinarily '#' .alone .bracket
     [.ident "doc", .punct '=' .alone, .literal (.other "3")] (by decide)⟩

/- The recognized documentation pair with payload "hello". -/
def c4DocGroup : TokenTree :=
  .group .bracket [.ident "doc", .punct '=' .alone, .literal (.str "hello")]

/-- C4 counterexample: for the recognized documentation pair whose string
literal has decoded value "hello", the renderer emits "///hello" followed by
a line break — the marker immediately followed by the decoded value with NO
inserted space — not "/// hello" as the claim states. -/
theorem doc_hello_line_has_no_inserted_space :
    write_tokens_normalized [.punct '#' .alone, c4DocGroup] = "///hello\n"
    ∧ write_tokens_normalized [.punct '#' .alone, c4DocGroup] ≠ "/// hello\n" := by
  have h1 : write_tokens_normalized [.punct '#' .alone, c4DocGroup] = "///hello\n" := by
    simp [write_tokens_normalized, writeTokensFrom, as_doc_comment, c4DocGroup]
  refine ⟨h1, ?_⟩
  rw [h1]
  decide

/-- C4 (amended): for every recognized documentation-attribute token pair
whose string literal has decoded value "hello", the renderer emits, in place
of the raw attribute tokens, a single line consisting of the line-comment
documentation marker immediately followed by the decoded value hello (no
space is inserted by the renderer) and then a line break. -/
theorem recognized_hello_doc_renders_as_line
    (tk1 tk2 : TokenTree) (h : as_doc_comment tk1 tk2 = some "hello") :
    write_tokens_normalized [tk1, tk2] = "///hello\n" := by
  rw [write_tokens_normalized, writeTokensFrom.eq_def]
  simp [h, writeTokensFrom]

/-- C4 witness: the concrete pair with payload "hello" is recognized and
renders to the documentation line. -/
theorem recognized_hello_doc_renders_as_line_witness :
    as_doc_comment (.punct '#' .alone) c4DocGroup = some "hello"
    ∧ write_tokens_normalized [.punct '#' .alone, c4DocGroup] = "///hello\n" :=
  ⟨by decide, recognized_hello_doc_renders_as_line _ _ (by decide)⟩

/- A leaf second token is never the group a documentation pair requires. -/
theorem as_doc_comment_of_leaf (t u : TokenTree) (hu : isLeaf u = true) :
    as_doc_comment t u = Option.none := by
  cases u with
  | group d s => simp [isLeaf] at hu
  | ident s => cases t <;> rfl
  | punct c sp => cases t <;> rfl
  | literal l => cases t <;> rfl

/-- C7: rendering a token sequence built purely from leaf tokens (no groups)
reproduces each token in order, separated by single spaces, except that no
space follows a punctuation token marked joined to the next, and every
semicolon punctuation token is immediately followed by a line break
regardless of spacing flags — the rendering coincides with the
specification-side leafRenderSpec, which spells out exactly those rules. -/
theorem leaf_tokens_render_with_single_spaces
    (ts : List TokenTree) (h : ts.all isLeaf = true) :
    write_tokens_normalized ts = leafRenderSpec ts true := by
  have main : ∀ (us : List TokenTree), us.all isLeaf = true →
      ∀ first joint : Bool,
        writeTokensFrom us first joint = leafRenderSpec us (first || joint) := by
    intro us
    induction us with
    | nil => intro _ _ _; simp [writeTokensFrom, leafRenderSpec]
    | cons t rest ih =>
      intro hall first joint
      simp only [List.all_cons, Bool.and_eq_true] at hall
      have ht := hall.1
      have hrest := hall.2
      cases rest with
      | nil =>
        cases t with
        | group d s => simp [isLeaf] at ht
        | ident s =>
          cases first <;> cases joint <;>
            simp [writeTokensFrom, leafRenderSpec, leafTokenText, isJointPunct]
        | punct c sp =>
          cases first <;> cases joint <;>
            simp [writeTokensFrom, leafRenderSpec, leafTokenText, isJointPunct]
        | literal l =>
          cases first <;> cases joint <;>
            simp [writeTokensFrom, leafRenderSpec, leafTokenText, isJointPunct]
      | cons next rest2 =>
        have hnext : isLeaf next = true := by
          simp only [List.all_cons, Bool.and_eq_true] at hrest
          exact hrest.1
        cases t with
        | group d s => simp [isLeaf] at ht
        | ident s =>
          have hrec := ih hrest false false
          cases first <;> cases joint <;>
            simp [writeTokensFrom, as_doc_comment_of_leaf _ next hnext, hrec,
              leafRenderSpec, leafTokenText, isJointPunct, String.append_assoc]
        | punct c sp =>
          cases sp with
          | alone =>
            have hrec := ih hrest false false
            cases first <;> cases joint <;>
              simp [writeTokensFrom, as_doc_comment_of_leaf _ next hnext, hrec,
                leafRenderSpec, leafTokenText, isJointPunct, String.append_assoc]
          | joint =>
            have hrec := ih hrest false true
            cases first <;> cases joint <;>
              simp [writeTokensFrom, as_doc_comment_of_leaf _ next hnext, hrec,
                leafRenderSpec, leafTokenText, isJointPunct, String.append_assoc]
        | literal l =>
          have hrec := ih hrest false false
          cases first <;> cases joint <;>
            simp [writeTokensFrom, as_doc_comment_of_leaf _ next hnext, hrec,
              leafRenderSpec, leafTokenText, isJointPunct, String.append_assoc]
  simpa [write_tokens_normalized] using main ts h true false

/- A leaf-only token sequence exercising all three rules: single spaces,
   joined punctuation, and the semicolon line break. -/
def wLeafTokens : List TokenTree :=
  [.ident "let", .ident "x", .punct '=' .alone, .literal (.other "1"),
   .punct ';' .alone, .ident "a", .punct ':' .joint, .punct ':' .alone, .ident "b"]

/-- C7 witness: the concrete leaf sequence renders with single spaces, no
space after the joined ':', and a line break right after ';'. -/
theorem leaf_tokens_render_with_single_spaces_witness :
    wLeafTokens.all isLeaf = true
    ∧ write_tokens_normalized wLeafTokens = leafRenderSpec wLeafTokens true
    ∧ leafRenderSpec wLeafTokens true = "let x = 1 ;\n a :: b" :=
  ⟨by decide,
   leaf_tokens_render_with_single_spaces wLeafTokens (by decide),
   by decide⟩
